import Mathlib

/-!
# Verification of the meeting-generator booking core (`src/server.js`)

Shallow embedding of the slot validator and booking store of the
meeting-generator server, together with proofs of the specified
properties.

Modelling conventions:
* JavaScript strings are Lean `String`s; the regular-expression tests
  `^\d{4}-\d{2}-\d{2}$` and `^\d{2}:\d{2}$` are expressed character by
  character (in JS, `\d` without the `u` flag is exactly `[0-9]`).
* JavaScript numbers reaching the validator are abstracted by
  `JsNumber`: either an integral value (`Number.isInteger` true) or
  `notInt` (NaN, infinities and non-integral floats, for all of which
  `Number.isInteger` is false).  The only arithmetic the source performs
  on a duration happens after `Number.isInteger(duration) && duration > 0`
  has passed, so the abstraction is exact on every reachable path.
* The persisted collection is a `List Booking`; each store operation is
  a function from the loaded collection to its result together with the
  collection as persisted afterwards (the source rewrites the whole file
  or leaves it untouched).
* `a.date.localeCompare(b.date)` is modelled by lexicographic `String`
  comparison, which agrees with it on the fixed-width digit/hyphen date
  strings the store persists.
-/

namespace MeetingGen

/-- A persisted booking record, mirroring the object built in
`handleApi` (POST branch) of `src/server.js`:
`{id, date, time, duration, startMinutes, endMinutes, createdAt}`. -/
structure Booking where
  id : String
  date : String
  time : String
  duration : Int
  startMinutes : Int
  endMinutes : Int
  createdAt : String
deriving DecidableEq, Repr

/-- Result of `JSON.parse` on the raw persisted file contents, as far as
`readBookings` inspects it: the parse can throw (unparsable text), or
succeed with an array of bookings, or succeed with a non-array value. -/
inductive JsonParse where
  | fail
  | arr (bookings : List Booking)
  | nonArray
deriving DecidableEq, Repr

/-- `readBookings` from `src/server.js`: `JSON.parse(raw)` is *not*
wrapped in try/catch, so an unparsable payload propagates the parse
exception to the caller; a parsable payload goes through
`Array.isArray(parsed) ? parsed : []`. -/
def readBookings : JsonParse → Except String (List Booking)
  | JsonParse.fail => Except.error "SyntaxError"
  | JsonParse.arr bookings => Except.ok bookings
  | JsonParse.nonArray => Except.ok []

/-- A JavaScript number as the validator observes it: an integral value,
or any value for which `Number.isInteger` is false (NaN, ±∞,
non-integral floats). -/
inductive JsNumber where
  | int (n : Int)
  | notInt
deriving DecidableEq, Repr

/-- The request body after the coercions at the top of
`parseAndValidateSlot`: `date`/`time` are `none` when the raw field was
not a string (the source substitutes `''`), and `duration` is the result
of `Number(body.duration)`. -/
structure RawBody where
  date : Option String
  time : Option String
  duration : JsNumber
deriving DecidableEq, Repr

/-- `[0-9]`, the character class `\d` of a JS regex without the `u` flag. -/
def isAsciiDigit (c : Char) : Bool :=
  decide ('0' ≤ c) && decide (c ≤ '9')

/-- The test `/^\d{4}-\d{2}-\d{2}$/.test(date)` of `src/server.js`. -/
def isValidDate (date : String) : Bool :=
  match date.data with
  | [y1, y2, y3, y4, s1, m1, m2, s2, d1, d2] =>
      isAsciiDigit y1 && isAsciiDigit y2 && isAsciiDigit y3 && isAsciiDigit y4 &&
      (s1 == '-') && isAsciiDigit m1 && isAsciiDigit m2 &&
      (s2 == '-') && isAsciiDigit d1 && isAsciiDigit d2
  | _ => false

/-- The test `/^\d{2}:\d{2}$/.test(time)` of `src/server.js`. -/
def isValidTime (time : String) : Bool :=
  match time.data with
  | [h1, h2, s, m1, m2] =>
      isAsciiDigit h1 && isAsciiDigit h2 && (s == ':') &&
      isAsciiDigit m1 && isAsciiDigit m2
  | _ => false

/-- `String.prototype.split(sep)` for a one-character separator,
restricted to the character list of the string. -/
def splitOnChar (sep : Char) : List Char → List (List Char)
  | [] => [[]]
  | c :: cs =>
      match splitOnChar sep cs with
      | [] => []
      | r :: rs => if c == sep then [] :: r :: rs else (c :: r) :: rs

/-- The value of `Number(s)` for a non-empty all-digit decimal string
(the only shape `toMinutes` receives after the regex check passed). -/
def digitsToNat (cs : List Char) : Nat :=
  cs.foldl (fun acc c => acc * 10 + (c.toNat - '0'.toNat)) 0

/-- `toMinutes` from `src/server.js`:
`const [hours, minutes] = String(time).split(':').map(Number);
return (hours * 60) + minutes;`.
The fallback branch (fewer than two `:`-separated parts, where the JS
produces NaN) is never reached on inputs that passed `isValidTime`. -/
def toMinutes (time : String) : Int :=
  match splitOnChar ':' time.data with
  | hours :: minutes :: _ => (digitsToNat hours : Int) * 60 + (digitsToNat minutes : Int)
  | _ => 0

/-- A validated, normalized slot: the object returned on the success
path of `parseAndValidateSlot`. -/
structure Slot where
  date : String
  time : String
  duration : Int
  startMinutes : Int
  endMinutes : Int
deriving DecidableEq, Repr

/-- Outcome of `parseAndValidateSlot`: either `{ error }` or the slot. -/
inductive SlotResult where
  | error (msg : String)
  | ok (slot : Slot)
deriving DecidableEq, Repr

/-- `parseAndValidateSlot` from `src/server.js`.  `body.date`/`body.time`
default to `''` when not strings; the three validity tests guard a
single generic error; then the midnight-boundary check runs on the
derived minutes. -/
def parseAndValidateSlot (body : RawBody) : SlotResult :=
  let date := body.date.getD ""
  let time := body.time.getD ""
  match body.duration with
  | JsNumber.notInt => SlotResult.error "Invalid date, time, or duration."
  | JsNumber.int duration =>
      if !isValidDate date || !isValidTime time || !(duration > 0) then
        SlotResult.error "Invalid date, time, or duration."
      else
        let startMinutes := toMinutes time
        let endMinutes := startMinutes + duration
        if endMinutes > 24 * 60 then
          SlotResult.error "Meeting cannot cross midnight."
        else
          SlotResult.ok { date := date, time := time, duration := duration,
                          startMinutes := startMinutes, endMinutes := endMinutes }

/-- `hasOverlap` from `src/server.js`:
`aStart < bEnd && aEnd > bStart`. -/
def hasOverlap (aStart aEnd bStart bEnd : Int) : Bool :=
  decide (aStart < bEnd) && decide (aEnd > bStart)

/-- The sort comparator of the GET `/api/bookings` branch, as a binary
relation: `bookingLE a b` holds exactly when the JS comparator
`(a, b) => a.date === b.date ? a.startMinutes - b.startMinutes
                             : a.date.localeCompare(b.date)`
returns a non-positive value (`localeCompare` modelled by lexicographic
string order, with which it agrees on the fixed-width date strings). -/
def bookingLE (a b : Booking) : Prop :=
  if a.date = b.date then a.startMinutes ≤ b.startMinutes else a.date < b.date

instance : DecidableRel bookingLE := fun a b => by
  unfold bookingLE; infer_instance

instance : IsTotal Booking bookingLE :=
  ⟨fun a b => by
    unfold bookingLE
    by_cases h : a.date = b.date
    · simp only [h, if_pos rfl]
      exact le_total a.startMinutes b.startMinutes
    · rw [if_neg h, if_neg (Ne.symm h)]
      exact lt_or_gt_of_ne h⟩

instance : IsTrans Booking bookingLE :=
  ⟨fun a b c hab hbc => by
    unfold bookingLE at hab hbc ⊢
    by_cases h1 : a.date = b.date <;> by_cases h2 : b.date = c.date
    · rw [if_pos h1] at hab
      rw [if_pos h2] at hbc
      rw [if_pos (h1.trans h2)]
      exact le_trans hab hbc
    · rw [if_pos h1] at hab
      rw [if_neg h2] at hbc
      rw [if_neg fun h => h2 (h1.symm.trans h)]
      exact h1.symm ▸ hbc
    · rw [if_neg h1] at hab
      rw [if_pos h2] at hbc
      rw [if_neg fun h => h1 (h.trans h2.symm)]
      exact h2 ▸ hab
    · rw [if_neg h1] at hab
      rw [if_neg h2] at hbc
      have hlt : a.date < c.date := lt_trans hab hbc
      rw [if_neg (ne_of_lt hlt)]
      exact hlt⟩

/-- The GET `/api/bookings` response body: the loaded collection sorted
by the comparator (`Array.prototype.sort` is stable and the comparator
is consistent, so any stable sort computes it; insertion sort here). -/
def listBookings (bookings : List Booking) : List Booking :=
  List.insertionSort bookingLE bookings

/-- The whole GET `/api/bookings` handler over the persisted state:
the response sequence together with the state as persisted afterwards
(the branch never calls `writeBookings`, so the state is returned as
loaded). -/
def handleListBookings (store : List Booking) : List Booking × List Booking :=
  (listBookings store, store)

/-- The conflict test applied to each existing booking in the POST
branch: `existing.date === slot.date && hasOverlap(slot.startMinutes,
slot.endMinutes, existing.startMinutes, existing.endMinutes)`. -/
def conflictsWith (slot : Slot) (existing : Booking) : Bool :=
  (existing.date == slot.date) &&
    hasOverlap slot.startMinutes slot.endMinutes existing.startMinutes existing.endMinutes

/-- Response of the POST branch once the slot validated: either the 409
conflict payload carrying the offending booking, or the 201 payload
carrying the new booking. -/
inductive CreateResult where
  | conflict (existing : Booking)
  | created (booking : Booking)
deriving DecidableEq, Repr

/-- The POST `/api/bookings` handler after validation, over the persisted
state.  `newId` stands for `randomUUID()` and `now` for
`new Date().toISOString()`.  Returns the response and the state as
persisted afterwards: on conflict nothing is written; on success the
new booking is appended (`bookings.push(booking)`) and the whole
collection rewritten. -/
def createBooking (slot : Slot) (newId now : String) (store : List Booking) :
    CreateResult × List Booking :=
  match store.find? (conflictsWith slot) with
  | some existing => (CreateResult.conflict existing, store)
  | none =>
      let booking : Booking :=
        { id := newId, date := slot.date, time := slot.time, duration := slot.duration,
          startMinutes := slot.startMinutes, endMinutes := slot.endMinutes, createdAt := now }
      (CreateResult.created booking, store ++ [booking])

/-- Outcome of the DELETE `/api/bookings/:id` branch: whether a booking
was removed (`200 {ok}` vs `404`), whether `writeBookings` was called,
and the state as persisted afterwards. -/
structure DeleteOutcome where
  found : Bool
  wrote : Bool
  store : List Booking
deriving DecidableEq, Repr

/-- The DELETE `/api/bookings/:id` handler over the persisted state:
`next = bookings.filter(item => item.id !== bookingId)`; when the length
is unchanged respond 404 without writing, otherwise persist `next`. -/
def deleteBooking (bookingId : String) (store : List Booking) : DeleteOutcome :=
  let next := store.filter (fun item => item.id ≠ bookingId)
  if next.length = store.length then
    { found := false, wrote := false, store := store }
  else
    { found := true, wrote := true, store := next }

/-- `Number.isInteger(duration) && duration > 0`, the duration test of
`parseAndValidateSlot` (the `notInt` abstraction makes
`Number.isInteger` false). -/
def isValidDuration : JsNumber → Bool
  | JsNumber.int n => decide (n > 0)
  | JsNumber.notInt => false

/-- The field-match predicate of the round-trip property: a listed
booking carries exactly the slot's normalized fields. -/
def matchesSlot (slot : Slot) (b : Booking) : Bool :=
  b.date == slot.date && b.time == slot.time && b.duration == slot.duration &&
    b.startMinutes == slot.startMinutes && b.endMinutes == slot.endMinutes

/-! ## Helper lemmas -/

theorem conflictsWith_iff (slot : Slot) (b : Booking) :
    conflictsWith slot b = true ↔
      b.date = slot.date ∧ slot.startMinutes < b.endMinutes ∧
        slot.endMinutes > b.startMinutes := by
  simp [conflictsWith, hasOverlap, and_assoc]

theorem createBooking_fst_conflict_iff (slot : Slot) (newId now : String)
    (store : List Booking) (existing : Booking) :
    (createBooking slot newId now store).1 = CreateResult.conflict existing ↔
      store.find? (conflictsWith slot) = some existing := by
  unfold createBooking
  cases h : store.find? (conflictsWith slot) <;> simp

/-! ## C1: defensive handling of the persisted payload -/

/-- C1, counterexample: on an unparsable persisted payload, `readBookings`
propagates the `JSON.parse` exception instead of returning the empty
collection, because the parse is not wrapped in try/catch. -/
theorem readBookings_corrupt_counterexample :
    readBookings JsonParse.fail = Except.error "SyntaxError" ∧
    readBookings JsonParse.fail ≠ Except.ok [] := by
  refine ⟨rfl, fun h => ?_⟩
  simp [readBookings] at h

/-- C1 (amended): a payload that parses to an array is returned as the
collection; a payload that parses to a non-array value is treated as the
empty collection; an unparsable payload makes the load fail with the
parse error, which the caller observes. -/
theorem readBookings_load_spec :
    (∀ bookings, readBookings (JsonParse.arr bookings) = Except.ok bookings) ∧
    readBookings JsonParse.nonArray = Except.ok [] ∧
    readBookings JsonParse.fail = Except.error "SyntaxError" :=
  ⟨fun _ => rfl, rfl, rfl⟩

/-! ## C2: conflict detection -/

/-- C2: `create` reports a conflict carrying an existing booking iff some
stored booking has the same date string and passes the half-open overlap
test `newStart < existingEnd && newEnd > existingStart`; the carried
booking is a stored one satisfying the test; a slot ending at minute `X`
never conflicts with a booking starting at `X` and vice versa; bookings
on a different date string never conflict. -/
theorem createBooking_conflict_characterization (slot : Slot) (newId now : String)
    (store : List Booking) :
    ((∃ existing, (createBooking slot newId now store).1 = CreateResult.conflict existing) ↔
        ∃ b ∈ store, b.date = slot.date ∧
          slot.startMinutes < b.endMinutes ∧ slot.endMinutes > b.startMinutes) ∧
    (∀ existing, (createBooking slot newId now store).1 = CreateResult.conflict existing →
        existing ∈ store ∧ existing.date = slot.date ∧
          slot.startMinutes < existing.endMinutes ∧ slot.endMinutes > existing.startMinutes) ∧
    (∀ b : Booking, slot.endMinutes = b.startMinutes → conflictsWith slot b = false) ∧
    (∀ b : Booking, b.endMinutes = slot.startMinutes → conflictsWith slot b = false) ∧
    (∀ b : Booking, b.date ≠ slot.date → conflictsWith slot b = false) := by
  refine ⟨⟨?_, ?_⟩, ?_, ?_, ?_, ?_⟩
  · rintro ⟨e, he⟩
    rw [createBooking_fst_conflict_iff] at he
    exact ⟨e, List.mem_of_find?_eq_some he,
      (conflictsWith_iff slot e).1 (List.find?_some he)⟩
  · rintro ⟨b, hb, hprop⟩
    have hsome : (store.find? (conflictsWith slot)).isSome := by
      rw [List.find?_isSome]
      exact ⟨b, hb, (conflictsWith_iff slot b).2 hprop⟩
    obtain ⟨e, he⟩ := Option.isSome_iff_exists.1 hsome
    exact ⟨e, (createBooking_fst_conflict_iff slot newId now store e).2 he⟩
  · intro e he
    rw [createBooking_fst_conflict_iff] at he
    exact ⟨List.mem_of_find?_eq_some he,
      (conflictsWith_iff slot e).1 (List.find?_some he)⟩
  · intro b h
    have hb : decide (slot.endMinutes > b.startMinutes) = false := by simp [h]
    simp [conflictsWith, hasOverlap, hb]
  · intro b h
    have hb : decide (slot.startMinutes < b.endMinutes) = false := by simp [h]
    simp [conflictsWith, hasOverlap, hb]
  · intro b h
    simp [conflictsWith, h]

/-! ## C3: invariants of every validated slot -/

theorem toMinutes_nonneg (time : String) : 0 ≤ toMinutes time := by
  unfold toMinutes
  cases h : splitOnChar ':' time.data with
  | nil => simp
  | cons a t =>
    cases t with
    | nil => simp
    | cons b t2 =>
      have ha : (0 : Int) ≤ (digitsToNat a : Int) := Int.natCast_nonneg _
      have hb : (0 : Int) ≤ (digitsToNat b : Int) := Int.natCast_nonneg _
      simp only []
      omega

/-- C3: every slot the validator accepts satisfies
`0 ≤ startMinutes < endMinutes ≤ 1440`, with
`startMinutes = toMinutes(time)` and
`endMinutes = startMinutes + duration`. -/
theorem validatedSlot_invariants (body : RawBody) (slot : Slot)
    (h : parseAndValidateSlot body = SlotResult.ok slot) :
    0 ≤ slot.startMinutes ∧ slot.startMinutes < slot.endMinutes ∧
      slot.endMinutes ≤ 1440 ∧ slot.startMinutes = toMinutes slot.time ∧
      slot.endMinutes = slot.startMinutes + slot.duration := by
  unfold parseAndValidateSlot at h
  cases hd : body.duration with
  | notInt =>
      rw [hd] at h
      simp at h
  | int d =>
      rw [hd] at h
      simp only [] at h
      by_cases hvalid : (!isValidDate (body.date.getD "") || !isValidTime (body.time.getD "")
          || !decide (d > 0)) = true
      · rw [if_pos hvalid] at h
        simp at h
      · rw [if_neg hvalid] at h
        have hdur : 0 < d := by
          by_contra hc
          apply hvalid
          have hdec : decide (d > 0) = false := by simp; omega
          simp [hdec]
        by_cases hmid : toMinutes (body.time.getD "") + d > 24 * 60
        · rw [if_pos hmid] at h
          simp at h
        · rw [if_neg hmid] at h
          have hnn := toMinutes_nonneg (body.time.getD "")
          injection h with h2
          subst h2
          refine ⟨hnn, by simp; omega, by simp; omega, rfl, rfl⟩

/-- C3 witness at a concrete accepted input. -/
theorem validatedSlot_invariants_witness :
    0 ≤ (540 : Int) ∧ (540 : Int) < 600 ∧ (600 : Int) ≤ 1440 ∧
      (540 : Int) = toMinutes "09:00" ∧ (600 : Int) = 540 + 60 :=
  validatedSlot_invariants ⟨some "2024-05-01", some "09:00", JsNumber.int 60⟩
    ⟨"2024-05-01", "09:00", 60, 540, 600⟩ (by decide)

/-! ## C4: midnight boundary -/

theorem parseValid_midnight_iff (date time : String) (n : Int)
    (hd : isValidDate date = true) (ht : isValidTime time = true) (hn : 0 < n) :
    parseAndValidateSlot ⟨some date, some time, JsNumber.int n⟩ =
        SlotResult.error "Meeting cannot cross midnight." ↔ 1440 < toMinutes time + n := by
  have hcond : (!isValidDate date || !isValidTime time || !decide (n > 0)) = false := by
    simp [hd, ht, hn]
  unfold parseAndValidateSlot
  simp only [Option.getD_some, hcond, Bool.false_eq_true, if_false]
  by_cases hmid : toMinutes time + n > 24 * 60
  · rw [if_pos hmid]
    simp
    omega
  · rw [if_neg hmid]
    simp
    omega

theorem parseValid_accepts (date time : String) (n : Int)
    (hd : isValidDate date = true) (ht : isValidTime time = true) (hn : 0 < n)
    (hle : toMinutes time + n ≤ 1440) :
    parseAndValidateSlot ⟨some date, some time, JsNumber.int n⟩ =
      SlotResult.ok { date := date, time := time, duration := n,
                      startMinutes := toMinutes time, endMinutes := toMinutes time + n } := by
  have hcond : (!isValidDate date || !isValidTime time || !decide (n > 0)) = false := by
    simp [hd, ht, hn]
  unfold parseAndValidateSlot
  simp only [Option.getD_some, hcond, Bool.false_eq_true, if_false]
  rw [if_neg (by omega : ¬ toMinutes time + n > 24 * 60)]

/-- C4: for a pattern-valid date and time and a positive integral
duration, the validator rejects with the midnight-crossing error exactly
when the derived end exceeds `1440`, and accepts (with the normalized
fields) whenever the end is at most `1440` — in particular an end of
exactly `1440` is accepted. -/
theorem validate_midnight_boundary (date time : String) (n : Int)
    (hd : isValidDate date = true) (ht : isValidTime time = true) (hn : 0 < n) :
    (parseAndValidateSlot ⟨some date, some time, JsNumber.int n⟩ =
        SlotResult.error "Meeting cannot cross midnight." ↔ 1440 < toMinutes time + n) ∧
    (toMinutes time + n ≤ 1440 →
      parseAndValidateSlot ⟨some date, some time, JsNumber.int n⟩ =
        SlotResult.ok { date := date, time := time, duration := n,
                        startMinutes := toMinutes time, endMinutes := toMinutes time + n }) :=
  ⟨parseValid_midnight_iff date time n hd ht hn,
    fun hle => parseValid_accepts date time n hd ht hn hle⟩

/-- C4 witness: the two boundary examples of the spec —
`("2024-05-01", "23:30", 30)` is accepted with end `1440`, and
`("2024-05-01", "23:30", 31)` is rejected with the midnight error. -/
theorem validate_midnight_boundary_witness :
    parseAndValidateSlot ⟨some "2024-05-01", some "23:30", JsNumber.int 30⟩ =
      SlotResult.ok { date := "2024-05-01", time := "23:30", duration := 30,
                      startMinutes := 1410, endMinutes := 1440 } ∧
    parseAndValidateSlot ⟨some "2024-05-01", some "23:30", JsNumber.int 31⟩ =
      SlotResult.error "Meeting cannot cross midnight." :=
  ⟨(validate_midnight_boundary "2024-05-01" "23:30" 30 (by decide) (by decide)
      (by decide)).2 (by decide),
    (validate_midnight_boundary "2024-05-01" "23:30" 31 (by decide) (by decide)
      (by decide)).1.mpr (by decide)⟩

/-! ## C5: the generic validation error -/

/-- C5: the validator yields the single generic error
`"Invalid date, time, or duration."` exactly when the date fails its
pattern, or the time fails its pattern, or the coerced duration is not a
positive integer; in particular every non-positive integral duration and
every non-integral duration is rejected with it. -/
theorem validate_generic_error_characterization :
    (∀ body : RawBody,
        parseAndValidateSlot body = SlotResult.error "Invalid date, time, or duration." ↔
          (isValidDate (body.date.getD "") = false ∨ isValidTime (body.time.getD "") = false ∨
            isValidDuration body.duration = false)) ∧
    (∀ date time : Option String, ∀ n : Int, n ≤ 0 →
        parseAndValidateSlot ⟨date, time, JsNumber.int n⟩ =
          SlotResult.error "Invalid date, time, or duration.") ∧
    (∀ date time : Option String,
        parseAndValidateSlot ⟨date, time, JsNumber.notInt⟩ =
          SlotResult.error "Invalid date, time, or duration.") := by
  refine ⟨fun body => ?_, fun date time n hn => ?_, fun date time => rfl⟩
  · cases hd : body.duration with
    | notInt => simp [parseAndValidateSlot, hd, isValidDuration]
    | int d =>
        by_cases ha : isValidDate (body.date.getD "") = true
        · by_cases hb : isValidTime (body.time.getD "") = true
          · by_cases hc : decide (d > 0) = true
            · simp only [parseAndValidateSlot, hd, ha, hb, hc, isValidDuration,
                Bool.not_true, Bool.false_or, Bool.or_self, Bool.false_eq_true,
                if_false, Bool.or_false]
              constructor
              · intro h
                split at h
                · exact absurd h (by decide)
                · exact absurd h (by simp)
              · rintro (h | h | h) <;> exact absurd h (by simp)
            · have hcf : decide (d > 0) = false := by simpa using hc
              simp [parseAndValidateSlot, hd, ha, hb, hcf, isValidDuration]
          · have hbf : isValidTime (body.time.getD "") = false := by simpa using hb
            simp [parseAndValidateSlot, hd, hbf]
        · have haf : isValidDate (body.date.getD "") = false := by simpa using ha
          simp [parseAndValidateSlot, hd, haf]
  · have hdec : decide (n > 0) = false := by simp; omega
    simp [parseAndValidateSlot, hdec]

/-! ## C6: deletion -/

/-- C6: `delete` reports a removal exactly when some stored booking has
the requested id; it writes exactly when the filtered collection is
shorter; on a removal the persisted collection is the original one with
every matching booking filtered out; on a miss nothing is written and
the persisted collection is unchanged. -/
theorem deleteBooking_spec (bookingId : String) (store : List Booking) :
    ((deleteBooking bookingId store).found = true ↔ ∃ b ∈ store, b.id = bookingId) ∧
    ((deleteBooking bookingId store).wrote = true ↔
        (store.filter (fun item => item.id ≠ bookingId)).length ≠ store.length) ∧
    ((deleteBooking bookingId store).found = true →
        (deleteBooking bookingId store).store =
          store.filter (fun item => item.id ≠ bookingId)) ∧
    ((deleteBooking bookingId store).found = false →
        (deleteBooking bookingId store).store = store ∧
          (deleteBooking bookingId store).wrote = false) := by
  unfold deleteBooking
  by_cases h : (store.filter (fun item => item.id ≠ bookingId)).length = store.length
  · rw [if_pos h]
    have hall : ∀ b ∈ store, b.id ≠ bookingId := by
      have h2 := List.filter_length_eq_length.mp h
      simpa using h2
    refine ⟨?_, ?_, ?_, ?_⟩
    · constructor
      · intro hfalse
        exact absurd hfalse (by simp)
      · rintro ⟨b, hb, hid⟩
        exact absurd hid (hall b hb)
    · constructor
      · intro hfalse
        exact absurd hfalse (by simp)
      · intro hne
        exact absurd h hne
    · intro hfalse
      exact absurd hfalse (by simp)
    · intro _
      exact ⟨rfl, rfl⟩
  · rw [if_neg h]
    refine ⟨?_, ?_, ?_, ?_⟩
    · constructor
      · intro _
        by_contra hnone
        push_neg at hnone
        exact h (List.filter_length_eq_length.mpr (by simpa using hnone))
      · intro _
        rfl
    · exact ⟨fun _ => h, fun _ => rfl⟩
    · intro _
      rfl
    · intro hfalse
      exact absurd hfalse (by simp)

/-! ## C7: listing -/

/-- C7: the GET handler returns the full collection (a permutation of the
stored one) sorted ascending by date — lexicographic string order —
with `startMinutes` breaking ties on equal dates, and the persisted
collection afterwards is exactly the one loaded. -/
theorem handleListBookings_spec (store : List Booking) :
    (handleListBookings store).1.Perm store ∧
    List.Sorted bookingLE (handleListBookings store).1 ∧
    (handleListBookings store).2 = store :=
  ⟨List.perm_insertionSort bookingLE store,
    List.sorted_insertionSort bookingLE store, rfl⟩

/-! ## C8: create/list/delete round trip -/

/-- C8: a successful `create` of a validated slot (fresh id, no
conflict found) followed by `list` shows exactly one booking carrying
the slot's normalized fields; deleting that booking's id restores the
original collection — so a subsequent `list` no longer contains it and
shows all other bookings unchanged. -/
theorem create_list_delete_roundtrip
    (slot : Slot) (newId now : String) (store : List Booking)
    (booking : Booking) (store2 : List Booking)
    (hse : slot.startMinutes < slot.endMinutes)
    (hfresh : ∀ b ∈ store, b.id ≠ newId)
    (hcreate : createBooking slot newId now store = (CreateResult.created booking, store2)) :
    (listBookings store2).countP (matchesSlot slot) = 1 ∧
    (deleteBooking booking.id store2).found = true ∧
    (deleteBooking booking.id store2).store = store ∧
    booking ∉ listBookings (deleteBooking booking.id store2).store ∧
    listBookings (deleteBooking booking.id store2).store = listBookings store := by
  unfold createBooking at hcreate
  cases hfind : store.find? (conflictsWith slot) with
  | some e =>
      rw [hfind] at hcreate
      simp at hcreate
  | none =>
      rw [hfind] at hcreate
      simp only [Prod.mk.injEq, CreateResult.created.injEq] at hcreate
      obtain ⟨hbk, hs2⟩ := hcreate
      have hid : booking.id = newId := by rw [← hbk]
      have hdate : booking.date = slot.date := by rw [← hbk]
      have htime : booking.time = slot.time := by rw [← hbk]
      have hdur : booking.duration = slot.duration := by rw [← hbk]
      have hstart : booking.startMinutes = slot.startMinutes := by rw [← hbk]
      have hend : booking.endMinutes = slot.endMinutes := by rw [← hbk]
      have hs2' : store2 = store ++ [booking] := by rw [← hs2, hbk]
      subst hs2'
      have hfilter : (store ++ [booking]).filter (fun item => item.id ≠ booking.id) = store := by
        rw [List.filter_append]
        have h1 : store.filter (fun item => item.id ≠ booking.id) = store :=
          List.filter_eq_self.mpr (fun b hb => by
            simpa using fun hcontra => (hfresh b hb) (hid ▸ hcontra))
        have h2 : [booking].filter (fun item => item.id ≠ booking.id) = [] := by simp
        rw [h1, h2, List.append_nil]
      have houtcome : deleteBooking booking.id (store ++ [booking]) =
          { found := true, wrote := true, store := store } := by
        unfold deleteBooking
        simp only [hfilter]
        rw [if_neg (by simp : ¬ store.length = (store ++ [booking]).length)]
      refine ⟨?_, by rw [houtcome], by rw [houtcome], ?_, by rw [houtcome]⟩
      · have hperm := List.perm_insertionSort bookingLE (store ++ [booking])
        rw [listBookings, hperm.countP_eq, List.countP_append]
        have hzero : store.countP (matchesSlot slot) = 0 := by
          rw [List.countP_eq_zero]
          intro b hb hpb
          simp only [matchesSlot, Bool.and_eq_true, beq_iff_eq] at hpb
          obtain ⟨⟨⟨⟨hd2, -⟩, -⟩, hs2b⟩, he2⟩ := hpb
          have hconf : conflictsWith slot b = true := by
            rw [conflictsWith_iff]
            refine ⟨hd2, by omega, by omega⟩
          exact absurd hconf (by simpa using List.find?_eq_none.mp hfind b hb)
        have hone : List.countP (matchesSlot slot) [booking] = 1 := by
          simp [List.countP_cons, matchesSlot, hdate, htime, hdur, hstart, hend]
        rw [hzero, hone]
      · rw [houtcome]
        intro hmem
        have hmem2 : booking ∈ store :=
          (List.perm_insertionSort bookingLE store).mem_iff.mp hmem
        exact hfresh booking hmem2 hid

/-- C8 witness: a concrete round trip against a one-booking store on
another date. -/
theorem create_list_delete_roundtrip_witness :
    (listBookings [⟨"b-old", "2024-06-02", "09:00", 60, 540, 600, "t0"⟩,
        ⟨"b-new", "2024-06-01", "09:00", 60, 540, 600, "t1"⟩]).countP
      (matchesSlot ⟨"2024-06-01", "09:00", 60, 540, 600⟩) = 1 ∧
    (deleteBooking "b-new" [⟨"b-old", "2024-06-02", "09:00", 60, 540, 600, "t0"⟩,
        ⟨"b-new", "2024-06-01", "09:00", 60, 540, 600, "t1"⟩]).found = true ∧
    (deleteBooking "b-new" [⟨"b-old", "2024-06-02", "09:00", 60, 540, 600, "t0"⟩,
        ⟨"b-new", "2024-06-01", "09:00", 60, 540, 600, "t1"⟩]).store =
      [⟨"b-old", "2024-06-02", "09:00", 60, 540, 600, "t0"⟩] ∧
    (⟨"b-new", "2024-06-01", "09:00", 60, 540, 600, "t1"⟩ : Booking) ∉
      listBookings (deleteBooking "b-new"
        [⟨"b-old", "2024-06-02", "09:00", 60, 540, 600, "t0"⟩,
         ⟨"b-new", "2024-06-01", "09:00", 60, 540, 600, "t1"⟩]).store ∧
    listBookings (deleteBooking "b-new"
        [⟨"b-old", "2024-06-02", "09:00", 60, 540, 600, "t0"⟩,
         ⟨"b-new", "2024-06-01", "09:00", 60, 540, 600, "t1"⟩]).store =
      listBookings [⟨"b-old", "2024-06-02", "09:00", 60, 540, 600, "t0"⟩] :=
  create_list_delete_roundtrip ⟨"2024-06-01", "09:00", 60, 540, 600⟩ "b-new" "t1"
    [⟨"b-old", "2024-06-02", "09:00", 60, 540, 600, "t0"⟩]
    ⟨"b-new", "2024-06-01", "09:00", 60, 540, 600, "t1"⟩
    [⟨"b-old", "2024-06-02", "09:00", 60, 540, 600, "t0"⟩,
     ⟨"b-new", "2024-06-01", "09:00", 60, 540, 600, "t1"⟩]
    (by decide) (by decide) (by decide)

/-! ## C9: unbounded minute component -/

/-- C9: the time pattern does not bound either component, so a minute
component of `60` or more passes validation; `"08:75"` normalizes by
overflow to `8*60+75 = 555` minutes, and a slot with such a time string
is accepted (and persisted) whenever its derived end is at most
`1440`. -/
theorem validator_accepts_overflow_minutes :
    isValidTime "08:75" = true ∧
    toMinutes "08:75" = 8 * 60 + 75 ∧
    (∀ n : Int, 0 < n → 555 + n ≤ 1440 →
      parseAndValidateSlot ⟨some "2024-05-01", some "08:75", JsNumber.int n⟩ =
        SlotResult.ok { date := "2024-05-01", time := "08:75", duration := n,
                        startMinutes := 555, endMinutes := 555 + n }) := by
  refine ⟨by decide, by decide, fun n hn hle => ?_⟩
  have ht555 : toMinutes "08:75" = (555 : Int) := by decide
  have h := parseValid_accepts "2024-05-01" "08:75" n (by decide) (by decide) hn
    (by rw [ht555]; exact hle)
  rw [ht555] at h
  exact h

/-! ## C10: first conflicting booking in storage order -/

/-- C10: when the proposed slot conflicts, the 409 payload carries the
first conflicting booking in the persisted collection's storage order:
for any decomposition `pre ++ c :: post` in which no booking of `pre`
conflicts and `c` does, the result is a conflict on `c` — whatever
`post` contains — and nothing is persisted. -/
theorem createBooking_first_conflict (slot : Slot) (newId now : String)
    (pre post : List Booking) (c : Booking)
    (hc : conflictsWith slot c = true)
    (hpre : ∀ b ∈ pre, conflictsWith slot b = false) :
    createBooking slot newId now (pre ++ c :: post) =
      (CreateResult.conflict c, pre ++ c :: post) := by
  have hfind : ∀ pre2 : List Booking, (∀ b ∈ pre2, conflictsWith slot b = false) →
      (pre2 ++ c :: post).find? (conflictsWith slot) = some c := by
    intro pre2
    induction pre2 with
    | nil =>
        intro _
        simp [List.find?_cons, hc]
    | cons a t ih =>
        intro hall
        have ha : conflictsWith slot a = false := hall a (by simp)
        have ht := ih (fun b hb => hall b (by simp [hb]))
        simp [List.find?_cons, ha, ht]
  unfold createBooking
  rw [hfind pre hpre]

/-- C10 witness: with a non-conflicting booking (other date) first and
two overlapping bookings after it, the conflict carries the earlier of
the two overlapping ones. -/
theorem createBooking_first_conflict_witness :
    createBooking ⟨"2024-06-01", "09:30", 30, 570, 600⟩ "id-new" "t-new"
        [⟨"id0", "2024-06-02", "09:30", 30, 570, 600, "t0"⟩,
         ⟨"id1", "2024-06-01", "09:00", 60, 540, 600, "t1"⟩,
         ⟨"id2", "2024-06-01", "09:45", 30, 585, 615, "t2"⟩] =
      (CreateResult.conflict ⟨"id1", "2024-06-01", "09:00", 60, 540, 600, "t1"⟩,
        [⟨"id0", "2024-06-02", "09:30", 30, 570, 600, "t0"⟩,
         ⟨"id1", "2024-06-01", "09:00", 60, 540, 600, "t1"⟩,
         ⟨"id2", "2024-06-01", "09:45", 30, 585, 615, "t2"⟩]) :=
  createBooking_first_conflict ⟨"2024-06-01", "09:30", 30, 570, 600⟩ "id-new" "t-new"
    [⟨"id0", "2024-06-02", "09:30", 30, 570, 600, "t0"⟩]
    [⟨"id2", "2024-06-01", "09:45", 30, 585, 615, "t2"⟩]
    ⟨"id1", "2024-06-01", "09:00", 60, 540, 600, "t1"⟩
    (by decide) (by decide)

end MeetingGen
